import Mathlib

set_option maxRecDepth 10000

/-!
Verification of the single-server web crawler (`crawler.py`) and its SQLite
persistence layer (`database.py`).

The crawler is embedded shallowly: the mutable attributes of the Python
`WebCrawler` object become an explicit state record, the external
collaborators (HTTP transport, URL validator, relative-URL resolution,
embedding model, wall clock) become a record of functions, and Python
exceptions become `Except` values that carry the state at the moment the
exception escapes (Python mutations performed before the raise persist).
-/

/-- A fetched HTML document, as the crawler observes it through
BeautifulSoup: the `href` attributes of its anchor elements in document
order (`none` models an anchor with no `href` attribute, for which
`link.get('href')` returns `None`), the text of its `h1` elements, and the
text of its `p` elements. -/
structure Page where
  anchors : List (Option String)
  h1s : List String
  ps : List String

/-- The external collaborators of `crawler.py`, modelled as pure functions:
`server_domain` is the module-level seed domain; `netloc u` models
`urlparse(u).netloc`; `head u` models `session.head(u).headers` restricted
to the `Content-Type` entry — `none` means the request failed or the header
is absent (both raise in Python); `fetch u` models
`session.get(u, timeout=0.1).text` followed by parsing, with `none` a fetch
failure (timeout or other `requests` exception); `validUrl` models
`validators.url` on a string (falsy results mapped to `false`); `joinRel`
models `urllib.parse.urljoin` on a non-empty relative reference;
`vectorize` models the sent2vec vectorizer; `now` models
`datetime.now()`. -/
structure Env where
  server_domain : String
  netloc : String → String
  head : String → Option String
  fetch : String → Option Page
  validUrl : String → Bool
  joinRel : String → String → String
  vectorize : String → List Int
  now : Nat

/-- One entry of `page_results`: the dict built at the end of
`WebCrawler.crawl`. -/
structure PageRecord where
  title : String
  content : String
  added : Nat
  url : String
  vector : List Int
deriving DecidableEq

/-- The mutable attributes of a `WebCrawler` object, plus `critical_log`,
which records the arguments of the `logging.critical` calls issued by
`WebCrawler.run` (the only high-severity log site). -/
structure CrawlerState where
  urls_backlog : List String
  urls_visited : List String
  urls_invalid : List String
  urls_non_html : List String
  page_results : List PageRecord
  critical_log : List String
deriving DecidableEq

/-- `WebCrawler.__init__(urls)`. -/
def initState (urls : List String) : CrawlerState :=
  { urls_backlog := urls, urls_visited := [], urls_invalid := [],
    urls_non_html := [], page_results := [], critical_log := [] }

/-- Contiguous-sublist test on character lists (helper for `strContains`). -/
def listInfix (pat : List Char) : List Char → Bool
  | [] => pat.isEmpty
  | c :: rest => pat.isPrefixOf (c :: rest) || listInfix pat rest

/-- Python's `in` on strings: substring containment, used by
`'text/html' in ...headers['Content-Type']`. -/
def strContains (hay pat : String) : Bool :=
  listInfix pat.data hay.data

namespace WebCrawler

/-- Extract the state from a computation that may have raised: the Python
object retains every mutation performed before the exception escaped. -/
def exState : Except CrawlerState CrawlerState → CrawlerState
  | .ok c => c
  | .error c => c

/-- As `exState`, for the link-scanning loop which also tracks the current
value of the (leaked) `for`-loop variable. -/
def exState2 : Except CrawlerState (CrawlerState × String) → CrawlerState
  | .ok p => p.1
  | .error c => c

/-- `urllib.parse.urljoin(base, ref)`: the stdlib returns `base` unchanged
when `ref` is falsy (`None` or the empty string); otherwise it performs
base+relative resolution, modelled by the abstract `env.joinRel`. -/
def urljoinPy (env : Env) (base : String) (ref : Option String) : String :=
  match ref with
  | none => base
  | some r => if r = "" then base else env.joinRel base r

/-- The body of the loop in `WebCrawler.get_links` up to the final validity
test: `path = link.get('href'); if not validators.url(path): path =
urljoin(url, path)`. A missing `href` (`None`) is falsy for
`validators.url`, so it goes straight to the join. -/
def resolveAnchor (env : Env) (base : String) (href : Option String) : String :=
  match href with
  | none => urljoinPy env base none
  | some p => if env.validUrl p then p else urljoinPy env base (some p)

/-- `WebCrawler.get_links(url, html)` run to completion on its own:
returns the list of yielded paths in order, together with the final value
of `urls_invalid` (starting from `invalid`). -/
def get_links (env : Env) (base : String) :
    List (Option String) → List String → List String × List String
  | [], invalid => ([], invalid)
  | a :: rest, invalid =>
    let path := resolveAnchor env base a
    if env.validUrl path then
      let r := get_links env base rest invalid
      (path :: r.1, r.2)
    else
      get_links env base rest (invalid ++ [path])

/-- `WebCrawler.add_new_url(url, session)`. The guard is the Python
short-circuit conjunction `url not in self.urls_visited and url not in
self.urls_backlog and url not in self.urls_invalid and
urlparse(url).netloc == server_domain` (note: `urls_non_html` is not
checked). When the guard holds, a `HEAD` request is issued; if its
`Content-Type` header is absent or the request fails
(`env.head url = none`), Python raises (`KeyError` / request exception),
modelled by `.error` carrying the unchanged state. -/
def add_new_url (env : Env) (c : CrawlerState) (url : String) :
    Except CrawlerState CrawlerState :=
  if !c.urls_visited.contains url && !c.urls_backlog.contains url
      && !c.urls_invalid.contains url
      && env.netloc url == env.server_domain then
    match env.head url with
    | none => .error c
    | some ct =>
      if strContains ct "text/html" then
        .ok { c with urls_backlog := c.urls_backlog ++ [url] }
      else
        .ok { c with urls_non_html := c.urls_non_html ++ [url] }
  else
    .ok c

/-- The loop `for url in self.get_links(url, html): self.add_new_url(url,
session=s)` in `WebCrawler.crawl`, with the generator interleaved as in
Python: each anchor is resolved, invalid paths are appended to
`urls_invalid` at yield time, and each yielded path is fed to
`add_new_url` immediately. The second component tracks the current value
of the loop variable `url`, which in Python shadows the parameter and
leaks past the loop; an exception from `add_new_url` aborts the loop. -/
def crawlLinks (env : Env) (base : String) :
    List (Option String) → CrawlerState → String →
    Except CrawlerState (CrawlerState × String)
  | [], c, cur => .ok (c, cur)
  | a :: rest, c, cur =>
    let path := resolveAnchor env base a
    if env.validUrl path then
      match add_new_url env c path with
      | .error c2 => .error c2
      | .ok c2 => crawlLinks env base rest c2 path
    else
      crawlLinks env base rest
        { c with urls_invalid := c.urls_invalid ++ [path] } cur

/-- `WebCrawler.get_headers`: concatenates the text of every `h1` element.
(The `except` fallback to the raw HTML cannot fire in the model, where
parsing is total.) -/
def get_headers (p : Page) : String := String.join p.h1s

/-- `WebCrawler.get_content`: concatenates the text of every `p` element. -/
def get_content (p : Page) : String := String.join p.ps

/-- `WebCrawler.crawl(url)`: fetch the page (a fetch failure raises with
the state unchanged), run the link loop, then build the result dict. The
dict's `'url'` key receives the final value of the variable `url`, which —
because the `for` loop above rebinds it — is the last yielded link when
the page yielded any link, and the fetched URL only otherwise. -/
def crawl (env : Env) (c : CrawlerState) (url : String) :
    Except CrawlerState CrawlerState :=
  match env.fetch url with
  | none => .error c
  | some page =>
    match crawlLinks env url page.anchors c url with
    | .error c2 => .error c2
    | .ok (c2, lastUrl) =>
      let headers := get_headers page
      let content := get_content page
      let vector := env.vectorize headers
      .ok { c2 with page_results := c2.page_results ++
              [{ title := headers, content := content, added := env.now,
                 url := lastUrl, vector := vector }] }

/-- One iteration of the `while self.urls_backlog:` loop in
`WebCrawler.run`: pop the head of the backlog, try `crawl`, on exception
log critically, and in all cases (`finally:`) append the popped URL to
`urls_visited`. On an empty backlog the state is returned unchanged. -/
def step (env : Env) (c : CrawlerState) : CrawlerState :=
  match c.urls_backlog with
  | [] => c
  | url :: rest =>
    let c1 : CrawlerState := { c with urls_backlog := rest }
    let c2 :=
      match crawl env c1 url with
      | .ok c3 => c3
      | .error c3 => { c3 with critical_log := c3.critical_log ++ [url] }
    { c2 with urls_visited := c2.urls_visited ++ [url] }

/-- `WebCrawler.run`, fuel-indexed: iterate `step` until the backlog is
empty; `none` means the loop had not terminated within `fuel`
iterations. -/
def run (env : Env) : Nat → CrawlerState → Option CrawlerState
  | 0, c => if c.urls_backlog = [] then some c else none
  | n + 1, c =>
    if c.urls_backlog = [] then some c else run env n (step env c)

end WebCrawler

/-!
Model of the Python `json` module restricted to lists of integers (the
shape `json.dumps` receives from `insert_website` and `json.loads`
returns in `get_all_websites`; JSON numbers are modelled as integers).
`dumps` renders with the default separator `", "`, exactly as
`json.dumps([1, -2])` renders `"[1, -2]"`; `loads` parses that grammar.
-/

namespace PyJson

/-- The decimal digit character for `d < 10`. -/
def digitChar (d : Nat) : Char := Char.ofNat (48 + d)

/-- The numeric value of a decimal digit character. -/
def charDigit (c : Char) : Nat := c.toNat - 48

/-- Decimal characters of a positive natural, most significant first. -/
def natChars (n : Nat) : List Char :=
  ((Nat.digits 10 n).map digitChar).reverse

/-- Decimal characters of any natural (renders `0` as `"0"`). -/
def natCharsFull (n : Nat) : List Char :=
  if n = 0 then ['0'] else natChars n

/-- Decimal rendering of an integer, as Python's `str`/`json.dumps`. -/
def intChars : Int → List Char
  | .ofNat n => natCharsFull n
  | .negSucc m => '-' :: natCharsFull (m + 1)

/-- Horner evaluation of a digit-character run, most significant first. -/
def parseNatChars (ds : List Char) : Nat :=
  ds.foldl (fun a c => a * 10 + charDigit c) 0

/-- Consume a maximal non-empty run of decimal digits from the front. -/
def parseNatPrefix (cs : List Char) : Option (Nat × List Char) :=
  let ds := cs.takeWhile Char.isDigit
  if ds = [] then none
  else some (parseNatChars ds, cs.dropWhile Char.isDigit)

/-- Consume a JSON integer (optional leading minus sign) from the front. -/
def parseIntPrefix (cs : List Char) : Option (Int × List Char) :=
  match cs with
  | [] => none
  | c :: cs2 =>
    if c = '-' then
      match parseNatPrefix cs2 with
      | none => none
      | some (n, rest) => some (-(n : Int), rest)
    else
      match parseNatPrefix cs with
      | none => none
      | some (n, rest) => some ((n : Int), rest)

/-- Render the comma-space separated items of a non-empty list. -/
def renderItems : List Int → List Char
  | [] => []
  | [x] => intChars x
  | x :: y :: t => intChars x ++ ',' :: ' ' :: renderItems (y :: t)

/-- Parse comma-space separated integers terminated by `]` (fuel-indexed;
the fuel only needs to dominate the number of items). -/
def parseItems : Nat → List Char → Option (List Int)
  | 0, _ => none
  | fuel + 1, cs =>
    match parseIntPrefix cs with
    | none => none
    | some (x, rest) =>
      match rest with
      | [']'] => some [x]
      | ',' :: ' ' :: rest2 => (parseItems fuel rest2).map (fun xs => x :: xs)
      | _ => none

/-- `json.dumps` on a list of integers. -/
def dumps (v : List Int) : String := ⟨'[' :: (renderItems v ++ [']'])⟩

/-- `json.loads` on the sublanguage produced by `dumps`; `none` models a
raised `json.JSONDecodeError`. -/
def loads (s : String) : Option (List Int) :=
  match s.data with
  | '[' :: rest => if rest = [']'] then some [] else parseItems rest.length rest
  | _ => none

end PyJson

/-!
Model of `database.py` (`WebsiteDatabase`). The two SQLite tables become
lists of rows in insertion order; `SELECT ... WHERE` with `fetchone`
becomes `List.find?`, `UPDATE ... WHERE` maps over all matching rows, and
`INSERT` appends. Python's duplicate `def insert_website` /
`def get_all_websites` mean the later, JSON-serializing definitions are
the live ones; those are the ones modelled. `DATE` and `REAL` column
values are opaque to every claim and are modelled as `Nat` and `Int`. -/

namespace WebsiteDatabase

/-- A row of the `Views` table. -/
structure ViewRow where
  url : String
  week : Int
  year : Int
  views : Int
deriving DecidableEq

/-- The `WHERE url = ? AND week = ? AND year = ?` predicate. -/
def matchesKey (url : String) (week year : Int) (r : ViewRow) : Bool :=
  r.url == url && r.week == week && r.year == year

/-- The `(url, week, year)` key of a row. -/
def viewKey (r : ViewRow) : String × Int × Int := (r.url, r.week, r.year)

/-- Rows are unique per `(url, week, year)`. -/
def keysUnique (t : List ViewRow) : Prop := (t.map viewKey).Nodup

/-- `WebsiteDatabase.find_one_view`: `SELECT * ... fetchone()` returns the
first matching row in table order, if any. -/
def find_one_view (t : List ViewRow) (url : String) (week year : Int) :
    Option ViewRow :=
  t.find? (matchesKey url week year)

/-- `WebsiteDatabase.update_views`: `UPDATE Views SET views = ? WHERE ...`
sets `views` on every matching row. -/
def update_views (t : List ViewRow) (url : String) (week year new_views : Int) :
    List ViewRow :=
  t.map (fun r => if matchesKey url week year r then
    { r with views := new_views } else r)

/-- `WebsiteDatabase.insert_view`: `INSERT INTO Views` appends a row. -/
def insert_view (t : List ViewRow) (url : String) (week year views : Int) :
    List ViewRow :=
  t ++ [{ url := url, week := week, year := year, views := views }]

/-- `WebsiteDatabase.insert_or_update_view`: find, then either update with
the found row's `views + 1` (index 3 of the tuple) or insert with 1. -/
def insert_or_update_view (t : List ViewRow) (url : String) (week year : Int) :
    List ViewRow :=
  match find_one_view t url week year with
  | some view_document => update_views t url week year (view_document.views + 1)
  | none => insert_view t url week year 1

/-- A row of the `Website` table; `vector` holds the TEXT column, i.e. the
JSON serialization of the vector. -/
structure WebsiteRow where
  title : String
  content : String
  added : Nat
  url : String
  vector : String
  relevance : Int
deriving DecidableEq

/-- The dict shape returned by `get_all_websites`, with the vector
deserialized. -/
structure WebsiteDict where
  title : String
  content : String
  added : Nat
  url : String
  vector : List Int
  relevance : Int
deriving DecidableEq

/-- The live `WebsiteDatabase.insert_website` (the second definition, line
139): serialize the vector with `json.dumps`, `INSERT`, and on a primary
key collision (`sqlite3.IntegrityError`, i.e. the url already present)
skip the row after printing a message. -/
def insert_website (t : List WebsiteRow) (title content : String)
    (added : Nat) (url : String) (vector : List Int) (relevance : Int) :
    List WebsiteRow :=
  if t.any (fun r => r.url == url) then t
  else t ++ [{ title := title, content := content, added := added,
               url := url, vector := PyJson.dumps vector,
               relevance := relevance }]

/-- One iteration of the read loop of `get_all_websites`: `json.loads` the
vector column and build the dict; `none` models a raised decode error. -/
def rowToDict (r : WebsiteRow) : Option WebsiteDict :=
  (PyJson.loads r.vector).map (fun v =>
    { title := r.title, content := r.content, added := r.added,
      url := r.url, vector := v, relevance := r.relevance })

/-- The live `WebsiteDatabase.get_all_websites` (the second definition,
line 162): convert every row in table order, propagating a decode
failure. -/
def get_all_websites : List WebsiteRow → Option (List WebsiteDict)
  | [] => some []
  | r :: rs =>
    match rowToDict r with
    | none => none
    | some d => (get_all_websites rs).map (fun ds => d :: ds)

end WebsiteDatabase

/-!
Concrete environments used by counterexamples and witnesses. Each models a
tiny deterministic web for the crawler, or fixed collaborator behaviour.
-/

/-- A one-page site whose page at `"A"` links to itself; every URL is
in-domain and every `HEAD` reports HTML. -/
def envSelfLink : Env :=
  { server_domain := "d", netloc := fun _ => "d",
    head := fun _ => some "text/html",
    fetch := fun u => if u = "A" then some ⟨[some "A"], [], []⟩ else none,
    validUrl := fun s => s == "A", joinRel := fun _ r => r,
    vectorize := fun _ => [], now := 0 }

/-- Collaborators for the missing-`Content-Type` scenario: every `HEAD`
fails to produce the header. -/
def envNoContentType : Env :=
  { server_domain := "d", netloc := fun _ => "d", head := fun _ => none,
    fetch := fun _ => none, validUrl := fun _ => false,
    joinRel := fun _ r => r, vectorize := fun _ => [], now := 0 }

/-- Collaborators where every `HEAD` reports a non-HTML content type. -/
def envPdfHead : Env :=
  { server_domain := "d", netloc := fun _ => "d",
    head := fun _ => some "application/pdf", fetch := fun _ => none,
    validUrl := fun _ => false, joinRel := fun _ r => r,
    vectorize := fun _ => [], now := 0 }

/-- A crawler state whose only discovered URL sits in the NonHTML
partition. -/
def stNonHtml : CrawlerState :=
  { urls_backlog := [], urls_visited := [], urls_invalid := [],
    urls_non_html := ["N"], page_results := [], critical_log := [] }

/-- A two-page site: the page at `"A"` carries a single valid link to
`"B"`, with heading text `"T"` and paragraph text `"P"`. -/
def envOneLink : Env :=
  { server_domain := "d", netloc := fun _ => "d",
    head := fun _ => some "text/html",
    fetch := fun u => if u = "A" then some ⟨[some "B"], ["T"], ["P"]⟩ else none,
    validUrl := fun s => s == "A" || s == "B",
    joinRel := fun _ r => r, vectorize := fun _ => [7], now := 5 }

/-- Collaborators where only `"A"` is a valid URL (used on anchors whose
`href` is empty). -/
def envBaseValid : Env :=
  { server_domain := "d", netloc := fun _ => "d", head := fun _ => none,
    fetch := fun _ => none, validUrl := fun s => s == "A",
    joinRel := fun _ r => r, vectorize := fun _ => [], now := 0 }

/-- Collaborators where only `"W"` is a valid URL. -/
def envBaseValidW : Env :=
  { server_domain := "d", netloc := fun _ => "d", head := fun _ => none,
    fetch := fun _ => none, validUrl := fun s => s == "W",
    joinRel := fun _ r => r, vectorize := fun _ => [], now := 0 }

/-- Collaborators where every fetch fails (timeout). -/
def envAllFetchFail : Env :=
  { server_domain := "d", netloc := fun _ => "d", head := fun _ => none,
    fetch := fun _ => none, validUrl := fun _ => false,
    joinRel := fun _ r => r, vectorize := fun _ => [], now := 0 }

/-- The three-page cycle `A → B → C → A`, all in-domain, all HTML. -/
def envCycle : Env :=
  { server_domain := "d", netloc := fun _ => "d",
    head := fun _ => some "text/html",
    fetch := fun u =>
      if u = "A" then some ⟨[some "B"], [], []⟩
      else if u = "B" then some ⟨[some "C"], [], []⟩
      else if u = "C" then some ⟨[some "A"], [], []⟩
      else none,
    validUrl := fun s => s == "A" || s == "B" || s == "C",
    joinRel := fun _ r => r, vectorize := fun _ => [], now := 0 }

/-- C1 (counterexample): the partitions are not mutually exclusive at every
instant. Seeded at `"A"` whose page links to itself, one iteration of the
run loop re-admits the in-flight URL (it is in none of the three checked
lists while being crawled) and then retires it, ending with `"A"` in both
`urls_backlog` and `urls_visited` at the same instant. -/
theorem C1_counterexample :
    (WebCrawler.step envSelfLink (initState ["A"])).urls_backlog.contains "A" = true ∧
    (WebCrawler.step envSelfLink (initState ["A"])).urls_visited.contains "A" = true :=
  ⟨rfl, rfl⟩

/-- C2: for a candidate that passes the membership and domain checks but
whose `HEAD` response carries no `Content-Type` (or whose `HEAD` request
fails), `add_new_url` does NOT classify it NonHTML: it propagates the
fault (`KeyError` / request exception) with the state unchanged — in
particular `urls_non_html` is left as it was. This refutes the claimed
behaviour and exhibits the defect the spec flags (§4.3, §9): the code
crashes where the spec mandates a NonHTML classification. -/
theorem C2_missing_content_type_raises (env : Env) (c : CrawlerState)
    (url : String)
    (h1 : c.urls_visited.contains url = false)
    (h2 : c.urls_backlog.contains url = false)
    (h3 : c.urls_invalid.contains url = false)
    (h4 : (env.netloc url == env.server_domain) = true)
    (h5 : env.head url = none) :
    WebCrawler.add_new_url env c url = .error c := by
  unfold WebCrawler.add_new_url
  rw [h1, h2, h3, h4, h5]
  rfl

/-- Witness for `C2_missing_content_type_raises` at a concrete input. -/
theorem C2_missing_content_type_raises_witness :
    (initState []).urls_visited.contains "u" = false ∧
    (initState []).urls_backlog.contains "u" = false ∧
    (initState []).urls_invalid.contains "u" = false ∧
    (envNoContentType.netloc "u" == envNoContentType.server_domain) = true ∧
    envNoContentType.head "u" = none ∧
    WebCrawler.add_new_url envNoContentType (initState []) "u" =
      .error (initState []) :=
  ⟨rfl, rfl, rfl, rfl, rfl,
    C2_missing_content_type_raises envNoContentType (initState []) "u"
      rfl rfl rfl rfl rfl⟩

/-- C3 (counterexample): admission is not idempotent on the NonHTML
partition. With `"N"` already in `urls_non_html` (and the `HEAD` reporting
a non-HTML type), `add_new_url` re-probes it and appends a duplicate, so
the partitions do not stay unchanged. -/
theorem C3_counterexample :
    stNonHtml.urls_non_html = ["N"] ∧
    WebCrawler.add_new_url envPdfHead stNonHtml "N" =
      .ok { stNonHtml with urls_non_html := ["N", "N"] } :=
  ⟨rfl, rfl⟩

/-- C3 (amended): admission is a no-op for a URL already present in
`Backlog`, `Visited`, or `Invalid` — the three partitions the membership
check actually covers. (For a URL only in `NonHTML` it is not a no-op, see
the counterexample.) -/
theorem C3_noop_on_checked_partitions (env : Env) (c : CrawlerState)
    (url : String)
    (h : c.urls_backlog.contains url = true ∨
         c.urls_visited.contains url = true ∨
         c.urls_invalid.contains url = true) :
    WebCrawler.add_new_url env c url = .ok c := by
  unfold WebCrawler.add_new_url
  rcases h with h | h | h <;> rw [h] <;> simp

/-- Witness for `C3_noop_on_checked_partitions` at a concrete input. -/
theorem C3_noop_on_checked_partitions_witness :
    ((initState ["B"]).urls_backlog.contains "B" = true ∨
      (initState ["B"]).urls_visited.contains "B" = true ∨
      (initState ["B"]).urls_invalid.contains "B" = true) ∧
    WebCrawler.add_new_url envPdfHead (initState ["B"]) "B" =
      .ok (initState ["B"]) :=
  ⟨Or.inl rfl,
    C3_noop_on_checked_partitions envPdfHead (initState ["B"]) "B" (Or.inl rfl)⟩

/-- C4: the record appended to `page_results` does NOT carry the fetched
URL. Fetching `"A"`, whose page contains the single valid link `"B"`,
produces a record whose `url` field is `"B"` — the last link yielded by
`get_links` — because the `for` loop in `WebCrawler.crawl` rebinds the
variable `url` that the result dict later reads. The spec (§4.4, §3)
requires the fetched URL `"A"` here. -/
theorem C4_record_gets_last_link_url :
    (WebCrawler.exState (WebCrawler.crawl envOneLink (initState []) "A")).page_results.map
        PageRecord.url = ["B"] ∧
    (["B"] : List String) ≠ ["A"] :=
  ⟨rfl, by decide⟩

/-- C5 (counterexample): an anchor with an empty `href` on the page at
`"A"` does not land in `urls_invalid` and IS yielded: `urljoin(base, "")`
returns the base itself, which is a valid URL, so `get_links` yields the
page's own URL and leaves `urls_invalid` unchanged. -/
theorem C5_counterexample :
    WebCrawler.get_links envBaseValid "A" [some ""] [] = (["A"], []) :=
  rfl

/-- C5 (amended): for an anchor whose `href` is missing or empty, the
resolution attempt is not a no-op: `urljoin` returns the base URL, and
when the base URL is valid (`validators.url` being falsy on the empty
string), `get_links` yields the base URL as a candidate and records no
Invalid entry. -/
theorem C5_empty_href_yields_base (env : Env) (base : String)
    (href : Option String) (invalid : List String)
    (h : href = none ∨ href = some "")
    (hbase : env.validUrl base = true)
    (hempty : env.validUrl "" = false) :
    WebCrawler.get_links env base [href] invalid = ([base], invalid) := by
  rcases h with h | h <;> subst h <;>
    simp [WebCrawler.get_links, WebCrawler.resolveAnchor,
      WebCrawler.urljoinPy, hempty, hbase]

/-- Witness for `C5_empty_href_yields_base` at a concrete input. -/
theorem C5_empty_href_yields_base_witness :
    ((some "" : Option String) = none ∨ (some "" : Option String) = some "") ∧
    envBaseValidW.validUrl "W" = true ∧
    envBaseValidW.validUrl "" = false ∧
    WebCrawler.get_links envBaseValidW "W" [some ""] ["x"] = (["W"], ["x"]) :=
  ⟨Or.inr rfl, rfl, rfl,
    C5_empty_href_yields_base envBaseValidW "W" (some "") ["x"]
      (Or.inr rfl) rfl rfl⟩

/-- C6: when the fetch of the dequeued URL fails (e.g. times out), one
iteration of the run loop appends the URL to `critical_log` (the
`logging.critical` call), retires it into `urls_visited` (the `finally:`
block), removes it from the backlog, and changes nothing else — in
particular `page_results` gains no record; and the loop simply proceeds:
`run` on remaining fuel continues from the stepped state rather than
aborting. -/
theorem C6_fetch_failure_retires_and_continues (env : Env) (c : CrawlerState)
    (url : String) (rest : List String)
    (hb : c.urls_backlog = url :: rest)
    (hf : env.fetch url = none) :
    WebCrawler.step env c =
      { c with urls_backlog := rest,
               urls_visited := c.urls_visited ++ [url],
               critical_log := c.critical_log ++ [url] } ∧
    ∀ n, WebCrawler.run env (n + 1) c = WebCrawler.run env n (WebCrawler.step env c) := by
  constructor
  · unfold WebCrawler.step
    rw [hb]
    simp [WebCrawler.crawl, hf]
  · intro n
    have h1 : WebCrawler.run env (n + 1) c =
        if c.urls_backlog = [] then some c
        else WebCrawler.run env n (WebCrawler.step env c) := rfl
    rw [h1, hb]
    simp

/-- Witness for `C6_fetch_failure_retires_and_continues` at a concrete
input. -/
theorem C6_fetch_failure_retires_and_continues_witness :
    (initState ["A"]).urls_backlog = "A" :: [] ∧
    envAllFetchFail.fetch "A" = none ∧
    WebCrawler.step envAllFetchFail (initState ["A"]) =
      { initState ["A"] with
          urls_backlog := [],
          urls_visited := ["A"],
          critical_log := ["A"] } ∧
    WebCrawler.run envAllFetchFail 1 (initState ["A"]) =
      WebCrawler.run envAllFetchFail 0 (WebCrawler.step envAllFetchFail (initState ["A"])) :=
  ⟨rfl, rfl,
    (C6_fetch_failure_retires_and_continues envAllFetchFail (initState ["A"])
        "A" [] rfl rfl).1,
    (C6_fetch_failure_retires_and_continues envAllFetchFail (initState ["A"])
        "A" [] rfl rfl).2 0⟩

/-- C7: on the cyclic site `A → B → C → A` seeded at `A`, the run loop
terminates (within 5 units of fuel it reaches the empty backlog and
returns `some`), and the visited list at termination is exactly
`["A", "B", "C"]` — each of the three URLs exactly once, and the backlog
is empty. -/
theorem C7_cycle_terminates :
    (WebCrawler.run envCycle 5 (initState ["A"])).map
        (fun c => (c.urls_visited, c.urls_backlog)) =
      some (["A", "B", "C"], []) :=
  rfl

/-!
Structural lemmas about the admission pipeline and the run loop, used for
the forward-motion invariant and the FIFO discipline.
-/

namespace WebCrawler

/-- `c2` extends `c` without disturbing visited URLs: the visited list is
unchanged, the backlog is only ever extended at the tail, and the
multiplicity of any already-visited URL in the backlog is untouched. -/
def backlogExtends (c c2 : CrawlerState) : Prop :=
  c2.urls_visited = c.urls_visited ∧
  (∃ ext, c2.urls_backlog = c.urls_backlog ++ ext) ∧
  (∀ u, c.urls_visited.contains u = true →
    c2.urls_backlog.count u = c.urls_backlog.count u)

theorem backlogExtends_refl (c : CrawlerState) : backlogExtends c c :=
  ⟨rfl, ⟨[], (List.append_nil _).symm⟩, fun _ _ => rfl⟩

theorem backlogExtends_trans {a b c : CrawlerState}
    (h1 : backlogExtends a b) (h2 : backlogExtends b c) :
    backlogExtends a c := by
  obtain ⟨hv1, ⟨e1, he1⟩, hc1⟩ := h1
  obtain ⟨hv2, ⟨e2, he2⟩, hc2⟩ := h2
  refine ⟨hv2.trans hv1, ⟨e1 ++ e2, by rw [he2, he1, List.append_assoc]⟩, ?_⟩
  intro u hu
  have hu2 : b.urls_visited.contains u = true := by rw [hv1]; exact hu
  rw [hc2 u hu2, hc1 u hu]

/-- Case analysis of `add_new_url` as a state transformer: it is a no-op,
raises with the state unchanged, appends the URL to the backlog (only
possible when the URL is not yet visited), or appends it to the NonHTML
log. -/
theorem add_new_url_state_cases (env : Env) (c : CrawlerState) (url : String) :
    add_new_url env c url = .ok c ∨
    add_new_url env c url = .error c ∨
    (c.urls_visited.contains url = false ∧
      add_new_url env c url =
        .ok { c with urls_backlog := c.urls_backlog ++ [url] }) ∨
    add_new_url env c url =
      .ok { c with urls_non_html := c.urls_non_html ++ [url] } := by
  unfold add_new_url
  by_cases hg : (!c.urls_visited.contains url && !c.urls_backlog.contains url
      && !c.urls_invalid.contains url
      && env.netloc url == env.server_domain) = true
  · have hv : c.urls_visited.contains url = false := by
      have hg2 := hg
      simp only [Bool.and_eq_true, Bool.not_eq_true'] at hg2
      exact hg2.1.1.1
    rw [if_pos hg]
    cases hh : env.head url with
    | none => exact Or.inr (Or.inl rfl)
    | some ct =>
      by_cases hct : strContains ct "text/html" = true
      · exact Or.inr (Or.inr (Or.inl ⟨hv, by simp [hct]⟩))
      · exact Or.inr (Or.inr (Or.inr (by simp [hct])))
  · rw [if_neg hg]
    exact Or.inl rfl

/-- Whatever `add_new_url` does — succeed or raise — the resulting state
extends the input state in the sense of `backlogExtends`. -/
theorem add_new_url_extends (env : Env) (c : CrawlerState) (url : String) :
    backlogExtends c (exState (add_new_url env c url)) := by
  rcases add_new_url_state_cases env c url with h | h | ⟨hv, h⟩ | h <;>
    rw [h] <;> simp only [exState]
  · exact backlogExtends_refl c
  · exact backlogExtends_refl c
  · refine ⟨rfl, ⟨[url], rfl⟩, ?_⟩
    intro u hu
    have hne : (url == u) = false := by
      rw [beq_eq_false_iff_ne]
      intro he
      subst he
      rw [hu] at hv
      simp at hv
    simp [List.count_append, List.count_singleton, hne]
  · exact ⟨rfl, ⟨[], (List.append_nil _).symm⟩, fun _ _ => rfl⟩

/-- The link loop of `crawl` only ever extends the state: visited URLs are
untouched, and the backlog grows only at the tail and only with
not-yet-visited URLs. -/
theorem crawlLinks_extends (env : Env) (base : String) :
    ∀ (anchors : List (Option String)) (c : CrawlerState) (cur : String),
      backlogExtends c (exState2 (crawlLinks env base anchors c cur)) := by
  intro anchors
  induction anchors with
  | nil =>
    intro c cur
    exact backlogExtends_refl c
  | cons a rest ih =>
    intro c cur
    simp only [crawlLinks]
    by_cases hv : env.validUrl (resolveAnchor env base a) = true
    · rw [if_pos hv]
      have hadd := add_new_url_extends env c (resolveAnchor env base a)
      cases hadd2 : add_new_url env c (resolveAnchor env base a) with
      | ok c2 =>
        rw [hadd2] at hadd
        simp only [exState] at hadd
        exact backlogExtends_trans hadd (ih c2 (resolveAnchor env base a))
      | error c2 =>
        rw [hadd2] at hadd
        simp only [exState] at hadd
        exact hadd
    · rw [if_neg hv]
      have hmid : backlogExtends c
          { c with urls_invalid := c.urls_invalid ++ [resolveAnchor env base a] } :=
        ⟨rfl, ⟨[], (List.append_nil _).symm⟩, fun _ _ => rfl⟩
      exact backlogExtends_trans hmid (ih _ cur)

/-- `crawl` extends the state in the sense of `backlogExtends`, whether it
returns normally or raises. -/
theorem crawl_extends (env : Env) (c : CrawlerState) (url : String) :
    backlogExtends c (exState (crawl env c url)) := by
  unfold crawl
  split
  · exact backlogExtends_refl c
  · rename_i page hpage
    split
    · rename_i c2 heq
      have hcl := crawlLinks_extends env url page.anchors c url
      rw [heq] at hcl
      simpa only [exState2, exState] using hcl
    · rename_i c2 lastUrl heq
      have hcl := crawlLinks_extends env url page.anchors c url
      rw [heq] at hcl
      simp only [exState2, exState] at hcl
      exact backlogExtends_trans hcl
        ⟨rfl, ⟨[], (List.append_nil _).symm⟩, fun _ _ => rfl⟩

/-- One run-loop iteration on a non-empty backlog retires exactly the head
URL and otherwise only extends the backlog at the tail: the new visited
list is the old one plus the dequeued URL, and the new backlog is the old
tail followed by some (possibly empty) run of newly admitted URLs whose
multiplicities of visited URLs are unchanged. -/
theorem step_cons (env : Env) (c : CrawlerState) (url : String)
    (rest : List String) (hb : c.urls_backlog = url :: rest) :
    (step env c).urls_visited = c.urls_visited ++ [url] ∧
    (∃ ext, (step env c).urls_backlog = rest ++ ext) ∧
    (∀ u, c.urls_visited.contains u = true →
      (step env c).urls_backlog.count u = rest.count u) := by
  have hstep : step env c =
      (fun c2 : CrawlerState =>
        { c2 with urls_visited := c2.urls_visited ++ [url] })
        (match crawl env { c with urls_backlog := rest } url with
          | .ok c3 => c3
          | .error c3 => { c3 with critical_log := c3.critical_log ++ [url] }) := by
    unfold step
    rw [hb]
  have hext := crawl_extends env { c with urls_backlog := rest } url
  rw [hstep]
  cases hcr : crawl env { c with urls_backlog := rest } url with
  | ok c3 =>
    rw [hcr] at hext
    simp only [exState] at hext
    obtain ⟨hv, ⟨ext, hbk⟩, hcnt⟩ := hext
    refine ⟨?_, ⟨ext, ?_⟩, ?_⟩
    · show c3.urls_visited ++ [url] = c.urls_visited ++ [url]
      rw [hv]
    · show c3.urls_backlog = rest ++ ext
      exact hbk
    · intro u hu
      exact hcnt u hu
  | error c3 =>
    rw [hcr] at hext
    simp only [exState] at hext
    obtain ⟨hv, ⟨ext, hbk⟩, hcnt⟩ := hext
    refine ⟨?_, ⟨ext, ?_⟩, ?_⟩
    · show c3.urls_visited ++ [url] = c.urls_visited ++ [url]
      rw [hv]
    · show c3.urls_backlog = rest ++ ext
      exact hbk
    · intro u hu
      exact hcnt u hu

end WebCrawler

/-- Membership in the left part survives appending on the right. -/
theorem contains_append_left {l1 l2 : List String} {a : String}
    (h : l1.contains a = true) : (l1 ++ l2).contains a = true := by
  have h1 : a ∈ l1 := List.elem_iff.mp h
  exact List.elem_iff.mpr (List.mem_append_left l2 h1)

/-- A crawler state with one URL already visited and another queued. -/
def stVisitedQueued : CrawlerState :=
  { urls_backlog := ["B"], urls_visited := ["A"], urls_invalid := [],
    urls_non_html := [], page_results := [], critical_log := [] }

/-- C1 (amended): the forward-motion half of the invariant holds — once a
URL is in `Visited` it stays there and is never again added to the
backlog: one run-loop iteration never increases the number of occurrences
of an already-visited URL in `urls_backlog` (the membership guard of
`add_new_url` checks `urls_visited`, and `urls_visited` is append-only).
The exactly-one-partition half fails, see the counterexample: the
in-flight URL belongs to no partition while being crawled, and when its
own page links back to it, it ends the iteration in both `Backlog` and
`Visited`. -/
theorem C1_visited_never_readmitted (env : Env) (c : CrawlerState)
    (u : String) (h : c.urls_visited.contains u = true) :
    (WebCrawler.step env c).urls_visited.contains u = true ∧
    (WebCrawler.step env c).urls_backlog.count u ≤ c.urls_backlog.count u := by
  cases hb : c.urls_backlog with
  | nil =>
    have hstep : WebCrawler.step env c = c := by
      unfold WebCrawler.step
      rw [hb]
    rw [hstep, hb]
    exact ⟨h, Nat.le_refl _⟩
  | cons url rest =>
    obtain ⟨hv, _, hcnt⟩ := WebCrawler.step_cons env c url rest hb
    constructor
    · rw [hv]
      exact contains_append_left h
    · rw [hcnt u h, List.count_cons]
      exact Nat.le_add_right _ _

/-- Witness for `C1_visited_never_readmitted` at a concrete input. -/
theorem C1_visited_never_readmitted_witness :
    stVisitedQueued.urls_visited.contains "A" = true ∧
    (WebCrawler.step envAllFetchFail stVisitedQueued).urls_visited.contains "A" = true ∧
    (WebCrawler.step envAllFetchFail stVisitedQueued).urls_backlog.count "A" ≤
      stVisitedQueued.urls_backlog.count "A" :=
  ⟨rfl,
    (C1_visited_never_readmitted envAllFetchFail stVisitedQueued "A" rfl).1,
    (C1_visited_never_readmitted envAllFetchFail stVisitedQueued "A" rfl).2⟩

/-- C8: the frontier backlog is FIFO. Enqueuing (the successful HTML
branch of `add_new_url`, i.e. `self.urls_backlog.append(url)`) appends the
URL at the tail of `urls_backlog`; and one iteration of the run loop
(`self.urls_backlog.pop(0)`) dequeues exactly the head: it retires the
head URL into `urls_visited` and leaves the backlog equal to the old tail
followed only by newly admitted URLs — so URLs are fetched in admission
(breadth-first) order. -/
theorem C8_fifo_discipline :
    (∀ (env : Env) (c : CrawlerState) (url : String),
      c.urls_visited.contains url = false →
      c.urls_backlog.contains url = false →
      c.urls_invalid.contains url = false →
      (env.netloc url == env.server_domain) = true →
      ∀ ct, env.head url = some ct → strContains ct "text/html" = true →
      WebCrawler.add_new_url env c url =
        .ok { c with urls_backlog := c.urls_backlog ++ [url] }) ∧
    (∀ (env : Env) (c : CrawlerState) (url : String) (rest : List String),
      c.urls_backlog = url :: rest →
      (WebCrawler.step env c).urls_visited = c.urls_visited ++ [url] ∧
      ∃ ext, (WebCrawler.step env c).urls_backlog = rest ++ ext) := by
  constructor
  · intro env c url h1 h2 h3 h4 ct hct hhtml
    unfold WebCrawler.add_new_url
    rw [h1, h2, h3, h4, hct]
    simp [hhtml]
  · intro env c url rest hb
    obtain ⟨hv, hext, _⟩ := WebCrawler.step_cons env c url rest hb
    exact ⟨hv, hext⟩

/-- Witness for `C8_fifo_discipline` at concrete inputs. -/
theorem C8_fifo_discipline_witness :
    WebCrawler.add_new_url envCycle (initState []) "A" =
      .ok { initState [] with
              urls_backlog := (initState []).urls_backlog ++ ["A"] } ∧
    ((WebCrawler.step envCycle (initState ["A"])).urls_visited =
        (initState ["A"]).urls_visited ++ ["A"] ∧
      ∃ ext, (WebCrawler.step envCycle (initState ["A"])).urls_backlog =
        [] ++ ext) :=
  ⟨C8_fifo_discipline.1 envCycle (initState []) "A" rfl rfl rfl rfl
      "text/html" rfl rfl,
    C8_fifo_discipline.2 envCycle (initState ["A"]) "A" [] rfl⟩

namespace WebsiteDatabase

/-- The SQL key predicate holds exactly when the row's key triple is the
queried one. -/
theorem matchesKey_iff (url : String) (week year : Int) (r : ViewRow) :
    matchesKey url week year r = true ↔ viewKey r = (url, week, year) := by
  simp [matchesKey, viewKey, Prod.ext_iff, Bool.and_eq_true, and_assoc]

/-- C9: `insert_or_update_view` behaves as find-or-increment on a table
whose rows are unique per `(url, week, year)`: it preserves that
uniqueness; when a row with the key exists, the result is the table with
exactly the matching row's `views` incremented by 1 (no row inserted, no
other row touched); when no row matches, the result is the table with
exactly one new row `views = 1` appended. -/
theorem C9_find_or_increment (t : List ViewRow) (url : String)
    (week year : Int) (hu : keysUnique t) :
    keysUnique (insert_or_update_view t url week year) ∧
    (∀ r, find_one_view t url week year = some r →
      insert_or_update_view t url week year =
        t.map (fun s => if matchesKey url week year s then
          { s with views := s.views + 1 } else s)) ∧
    (find_one_view t url week year = none →
      insert_or_update_view t url week year =
        t ++ [{ url := url, week := week, year := year, views := 1 }]) := by
  refine ⟨?_, ?_, ?_⟩
  · unfold insert_or_update_view
    cases hf : find_one_view t url week year with
    | some r =>
      show keysUnique (update_views t url week year (r.views + 1))
      unfold keysUnique update_views
      rw [List.map_map]
      have hfun : (viewKey ∘ fun s => if matchesKey url week year s then
          { s with views := r.views + 1 } else s) = viewKey := by
        funext s
        by_cases hm : matchesKey url week year s = true <;>
          simp [hm, viewKey, Function.comp]
      rw [hfun]
      exact hu
    | none =>
      show keysUnique (insert_view t url week year 1)
      unfold keysUnique insert_view
      rw [List.map_append, List.nodup_append]
      refine ⟨hu, by simp, ?_⟩
      intro k hk1 hk2
      simp only [List.map_cons, List.map_nil, List.mem_singleton] at hk2
      subst hk2
      obtain ⟨s, hs, hkey⟩ := List.mem_map.mp hk1
      have hm : matchesKey url week year s = true :=
        (matchesKey_iff url week year s).mpr hkey
      have := List.find?_eq_none.mp hf s hs
      exact this hm
  · intro r hr
    unfold insert_or_update_view
    rw [hr]
    unfold update_views
    apply List.map_congr_left
    intro s hs
    have hrkey : matchesKey url week year r = true := List.find?_some hr
    have hrmem : r ∈ t := List.mem_of_find?_eq_some hr
    by_cases hm : matchesKey url week year s = true
    · rw [if_pos hm, if_pos hm]
      have hsr : s = r :=
        List.inj_on_of_nodup_map hu hs hrmem
          (by rw [(matchesKey_iff url week year s).mp hm,
                  (matchesKey_iff url week year r).mp hrkey])
      rw [hsr]
    · rw [if_neg hm, if_neg hm]
  · intro hf
    unfold insert_or_update_view
    rw [hf]
    rfl

/-- Witness for `C9_find_or_increment` at a concrete one-row table. -/
theorem C9_find_or_increment_witness :
    keysUnique [(⟨"a", 1, 2024, 5⟩ : ViewRow)] ∧
    (keysUnique (insert_or_update_view [⟨"a", 1, 2024, 5⟩] "a" 1 2024) ∧
      (∀ r, find_one_view [⟨"a", 1, 2024, 5⟩] "a" 1 2024 = some r →
        insert_or_update_view [⟨"a", 1, 2024, 5⟩] "a" 1 2024 =
          List.map (fun s => if matchesKey "a" 1 2024 s then
            { s with views := s.views + 1 } else s) [⟨"a", 1, 2024, 5⟩]) ∧
      (find_one_view [⟨"a", 1, 2024, 5⟩] "a" 1 2024 = none →
        insert_or_update_view [⟨"a", 1, 2024, 5⟩] "a" 1 2024 =
          [⟨"a", 1, 2024, 5⟩] ++ [{ url := "a", week := 1, year := 2024, views := 1 }])) :=
  ⟨by simp [keysUnique],
    C9_find_or_increment [⟨"a", 1, 2024, 5⟩] "a" 1 2024 (by simp [keysUnique])⟩

end WebsiteDatabase

namespace PyJson

/-- `takeWhile` over an append whose left part satisfies the predicate and
whose right part starts (if at all) with a failing element. -/
theorem takeWhile_append_of (p : Char → Bool) (l1 l2 : List Char)
    (h1 : ∀ c ∈ l1, p c = true) (h2 : l2.takeWhile p = []) :
    (l1 ++ l2).takeWhile p = l1 := by
  induction l1 with
  | nil => simpa using h2
  | cons a l ih =>
    have hpa : p a = true := h1 a (by simp)
    simp [List.takeWhile_cons, hpa, ih (fun c hc => h1 c (by simp [hc]))]

/-- Companion of `takeWhile_append_of` for `dropWhile`. -/
theorem dropWhile_append_of (p : Char → Bool) (l1 l2 : List Char)
    (h1 : ∀ c ∈ l1, p c = true) (h2 : l2.takeWhile p = []) :
    (l1 ++ l2).dropWhile p = l2 := by
  induction l1 with
  | nil =>
    cases l2 with
    | nil => rfl
    | cons b bs =>
      simp only [List.takeWhile_cons] at h2
      by_cases hb : p b = true
      · simp [hb] at h2
      · simp only [List.nil_append]
        rw [List.dropWhile_cons]
        simp [hb]
  | cons a l ih =>
    have hpa : p a = true := h1 a (by simp)
    simp [List.dropWhile_cons, hpa, ih (fun c hc => h1 c (by simp [hc]))]

theorem charDigit_digitChar (d : Nat) (h : d < 10) :
    charDigit (digitChar d) = d := by
  interval_cases d <;> rfl

theorem isDigit_digitChar (d : Nat) (h : d < 10) :
    (digitChar d).isDigit = true := by
  interval_cases d <;> rfl

theorem natCharsFull_all_digits (n : Nat) :
    ∀ c ∈ natCharsFull n, c.isDigit = true := by
  intro c hc
  unfold natCharsFull at hc
  by_cases h0 : n = 0
  · rw [if_pos h0] at hc
    simp only [List.mem_singleton] at hc
    rw [hc]
    rfl
  · rw [if_neg h0] at hc
    unfold natChars at hc
    rw [List.mem_reverse, List.mem_map] at hc
    obtain ⟨d, hd, hdc⟩ := hc
    have hlt : d < 10 := Nat.digits_lt_base (by norm_num) hd
    rw [← hdc]
    exact isDigit_digitChar d hlt

theorem natCharsFull_ne_nil (n : Nat) : natCharsFull n ≠ [] := by
  unfold natCharsFull
  by_cases h0 : n = 0
  · simp [h0]
  · rw [if_neg h0]
    unfold natChars
    simp [Nat.digits_ne_nil_iff_ne_zero.mpr h0]

/-- Horner evaluation of the rendered digit run recovers the number. -/
theorem foldl_digits (l : List Nat) (hl : ∀ d ∈ l, d < 10) :
    ∀ acc : Nat,
      List.foldl (fun a c => a * 10 + charDigit c) acc ((l.map digitChar).reverse)
        = acc * 10 ^ l.length + Nat.ofDigits 10 l := by
  induction l with
  | nil => intro acc; simp [Nat.ofDigits_nil]
  | cons d tl ih =>
    intro acc
    rw [List.map_cons, List.reverse_cons, List.foldl_append]
    simp only [List.foldl_cons, List.foldl_nil]
    rw [ih (fun x hx => hl x (by simp [hx])) acc]
    rw [charDigit_digitChar d (hl d (by simp))]
    rw [Nat.ofDigits_cons]
    simp only [List.length_cons]
    ring

theorem parseNatChars_natCharsFull (n : Nat) :
    parseNatChars (natCharsFull n) = n := by
  unfold natCharsFull
  by_cases h0 : n = 0
  · rw [if_pos h0, h0]
    rfl
  · rw [if_neg h0]
    unfold natChars parseNatChars
    rw [foldl_digits (Nat.digits 10 n)
      (fun d hd => Nat.digits_lt_base (by norm_num) hd) 0]
    simp [Nat.ofDigits_digits]

theorem parseNatPrefix_spec (n : Nat) (rest : List Char)
    (hrest : rest.takeWhile Char.isDigit = []) :
    parseNatPrefix (natCharsFull n ++ rest) = some (n, rest) := by
  unfold parseNatPrefix
  rw [takeWhile_append_of Char.isDigit _ rest (natCharsFull_all_digits n) hrest,
      dropWhile_append_of Char.isDigit _ rest (natCharsFull_all_digits n) hrest]
  rw [if_neg (natCharsFull_ne_nil n)]
  rw [parseNatChars_natCharsFull]

theorem parseIntPrefix_spec (x : Int) (rest : List Char)
    (hrest : rest.takeWhile Char.isDigit = []) :
    parseIntPrefix (intChars x ++ rest) = some (x, rest) := by
  cases x with
  | ofNat n =>
    obtain ⟨c, cs, hshape⟩ : ∃ c cs, natCharsFull n = c :: cs := by
      cases hnc : natCharsFull n with
      | nil => exact absurd hnc (natCharsFull_ne_nil n)
      | cons c cs => exact ⟨c, cs, rfl⟩
    have hcdig : c.isDigit = true := by
      apply natCharsFull_all_digits n
      rw [hshape]
      simp
    have hcne : ¬(c = '-') := by
      intro he
      rw [he] at hcdig
      exact absurd hcdig (by decide)
    have hic : intChars (Int.ofNat n) = natCharsFull n := rfl
    rw [hic, hshape]
    show parseIntPrefix (c :: (cs ++ rest)) = some (Int.ofNat n, rest)
    simp only [parseIntPrefix]
    rw [if_neg hcne]
    have hback : c :: (cs ++ rest) = natCharsFull n ++ rest := by
      rw [hshape]
      rfl
    rw [hback, parseNatPrefix_spec n rest hrest]
    rfl
  | negSucc m =>
    have hic : intChars (Int.negSucc m) = '-' :: natCharsFull (m + 1) := rfl
    rw [hic]
    show parseIntPrefix ('-' :: (natCharsFull (m + 1) ++ rest)) =
      some (Int.negSucc m, rest)
    simp only [parseIntPrefix]
    rw [if_pos trivial]
    rw [parseNatPrefix_spec (m + 1) rest hrest]
    have hneg : -((m + 1 : Nat) : Int) = Int.negSucc m := by
      rw [Int.negSucc_eq]
      push_cast
      ring
    show some (-((m + 1 : Nat) : Int), rest) = some (Int.negSucc m, rest)
    rw [hneg]

theorem intChars_ne_nil (x : Int) : intChars x ≠ [] := by
  cases x with
  | ofNat n => exact natCharsFull_ne_nil n
  | negSucc m => simp [intChars]

theorem renderItems_ne_nil (x : Int) (xs : List Int) :
    renderItems (x :: xs) ≠ [] := by
  cases xs with
  | nil => exact intChars_ne_nil x
  | cons y t =>
    show intChars x ++ ',' :: ' ' :: renderItems (y :: t) ≠ []
    intro h
    rw [List.append_eq_nil] at h
    exact List.cons_ne_nil _ _ h.2

theorem renderItems_length_ge (v : List Int) :
    v.length ≤ (renderItems v).length := by
  induction v with
  | nil => simp [renderItems]
  | cons x xs ih =>
    cases xs with
    | nil =>
      show 1 ≤ (intChars x).length
      exact List.length_pos.mpr (intChars_ne_nil x)
    | cons y t =>
      show (x :: y :: t).length ≤
        (intChars x ++ ',' :: ' ' :: renderItems (y :: t)).length
      have h1 : 1 ≤ (intChars x).length := List.length_pos.mpr (intChars_ne_nil x)
      simp only [List.length_append, List.length_cons] at *
      omega

theorem parseItems_render (v : List Int) (hv : v ≠ []) :
    ∀ fuel, v.length ≤ fuel →
      parseItems fuel (renderItems v ++ [']']) = some v := by
  induction v with
  | nil => exact absurd rfl hv
  | cons x xs ih =>
    intro fuel hfuel
    cases fuel with
    | zero => simp at hfuel
    | succ f =>
      cases xs with
      | nil =>
        show parseItems (f + 1) (intChars x ++ [']']) = some [x]
        simp only [parseItems]
        rw [parseIntPrefix_spec x [']'] (by rfl)]
        rfl
      | cons y t =>
        have hassoc : renderItems (x :: y :: t) ++ [']']
            = intChars x ++ (',' :: ' ' :: (renderItems (y :: t) ++ [']'])) := by
          show (intChars x ++ ',' :: ' ' :: renderItems (y :: t)) ++ [']'] = _
          rw [List.append_assoc]
          rfl
        rw [hassoc]
        simp only [parseItems]
        rw [parseIntPrefix_spec x (',' :: ' ' :: (renderItems (y :: t) ++ [']']))
          (by rfl)]
        show (parseItems f (renderItems (y :: t) ++ [']'])).map
          (fun xs => x :: xs) = some (x :: y :: t)
        rw [ih (by simp) f (by simp only [List.length_cons] at hfuel ⊢; omega)]
        rfl

/-- `json.loads` inverts `json.dumps` on every list of integers. -/
theorem loads_dumps (v : List Int) : loads (dumps v) = some v := by
  cases v with
  | nil => rfl
  | cons x xs =>
    show loads ⟨'[' :: (renderItems (x :: xs) ++ [']'])⟩ = some (x :: xs)
    have hne : ¬(renderItems (x :: xs) ++ [']'] = [']']) := by
      intro h
      have hlen := congrArg List.length h
      simp only [List.length_append, List.length_cons, List.length_nil] at hlen
      have : renderItems (x :: xs) = [] := List.length_eq_zero.mp (by omega)
      exact renderItems_ne_nil x xs this
    show (if renderItems (x :: xs) ++ [']'] = [']'] then some []
      else parseItems (renderItems (x :: xs) ++ [']']).length
        (renderItems (x :: xs) ++ [']'])) = some (x :: xs)
    rw [if_neg hne]
    apply parseItems_render (x :: xs) (List.cons_ne_nil x xs)
    have h1 := renderItems_length_ge (x :: xs)
    simp only [List.length_append, List.length_cons, List.length_nil] at *
    omega

end PyJson

namespace WebsiteDatabase

/-- Reading a table extended by one decodable row: every earlier row
decodes (by hypothesis), so the result is the earlier dicts followed by
the new row's dict. -/
theorem get_all_append (t : List WebsiteRow) (row : WebsiteRow)
    (h : ∀ r ∈ t, (rowToDict r).isSome = true) (d : WebsiteDict)
    (hd : rowToDict row = some d) :
    ∃ pre, get_all_websites (t ++ [row]) = some (pre ++ [d]) := by
  induction t with
  | nil =>
    refine ⟨[], ?_⟩
    show get_all_websites [row] = some ([] ++ [d])
    simp only [get_all_websites]
    rw [hd]
    rfl
  | cons r rs ih =>
    have hr : (rowToDict r).isSome = true := h r (by simp)
    obtain ⟨dr, hdr⟩ : ∃ dr, rowToDict r = some dr := by
      cases hx : rowToDict r with
      | none => rw [hx] at hr; simp at hr
      | some dr => exact ⟨dr, rfl⟩
    obtain ⟨pre, hpre⟩ := ih (fun s hs => h s (by simp [hs]))
    refine ⟨dr :: pre, ?_⟩
    show get_all_websites (r :: (rs ++ [row])) = some ((dr :: pre) ++ [d])
    simp only [get_all_websites]
    rw [hdr, hpre]
    rfl

/-- C10: the vector field round-trips through persistence. For a record
whose url is not yet in the `Website` table (and a table whose stored
vectors decode, as every table populated through `insert_website` does),
`insert_website` followed by `get_all_websites` returns, as the last
entry, a dict for that url whose `vector` equals the inserted list:
`json.dumps` on write is inverted by `json.loads` on read. -/
theorem C10_vector_roundtrip (t : List WebsiteRow) (title content : String)
    (added : Nat) (url : String) (v : List Int) (relevance : Int)
    (hfresh : t.any (fun r => r.url == url) = false)
    (hparse : ∀ r ∈ t, (rowToDict r).isSome = true) :
    ∃ pre, get_all_websites
        (insert_website t title content added url v relevance) =
      some (pre ++ [{ title := title, content := content, added := added,
                      url := url, vector := v, relevance := relevance }]) := by
  have hins : insert_website t title content added url v relevance =
      t ++ [{ title := title, content := content, added := added, url := url,
              vector := PyJson.dumps v, relevance := relevance }] := by
    unfold insert_website
    rw [hfresh]
    simp
  rw [hins]
  apply get_all_append t _ hparse
  unfold rowToDict
  rw [PyJson.loads_dumps]
  rfl

/-- Witness for `C10_vector_roundtrip` at a concrete record on the empty
table. -/
theorem C10_vector_roundtrip_witness :
    (([] : List WebsiteRow).any (fun r => r.url == "u") = false) ∧
    (∀ r ∈ ([] : List WebsiteRow), (rowToDict r).isSome = true) ∧
    ∃ pre, get_all_websites
        (insert_website [] "t" "c" 3 "u" [1, -2, 30] 0) =
      some (pre ++ [{ title := "t", content := "c", added := 3, url := "u",
                      vector := [1, -2, 30], relevance := 0 }]) :=
  ⟨rfl, fun r hr => absurd hr (List.not_mem_nil r),
    C10_vector_roundtrip [] "t" "c" 3 "u" [1, -2, 30] 0 rfl
      (fun r hr => absurd hr (List.not_mem_nil r))⟩

end WebsiteDatabase
